import Mathlib

/-!
# Verification of the Hyrise LQP `JoinNode` and calibration-configuration ordering

A shallow embedding of `src/lib/logical_query_plan/join_node.cpp` and of the
`CalibrationQueryGeneratorPredicateConfiguration` comparison operators, with
theorems settling the specified properties of constraint propagation, output
columns, nullability, construction invariants, shallow copy/equality, and the
lexicographic configuration order.
-/

set_option autoImplicit false

namespace HyriseLQP

/-- `PredicateCondition` (subset used by join predicates). -/
inductive PredicateCondition where
  | Equals
  | NotEquals
  | LessThan
  | LessThanEquals
  | GreaterThan
  | GreaterThanEquals
  | Like
  | NotLike
deriving DecidableEq, Repr

/-- `JoinMode` from `types.hpp`. -/
inductive JoinMode where
  | Inner
  | Left
  | Right
  | FullOuter
  | Cross
  | Semi
  | AntiNullAsTrue
  | AntiNullAsFalse
deriving DecidableEq, Repr

/-- Integer code of a `JoinMode` (the underlying enum value, used by
`boost::hash_value(join_mode)` in `_on_shallow_hash`). -/
def JoinMode.code : JoinMode → Nat
  | .Inner => 0
  | .Left => 1
  | .Right => 2
  | .FullOuter => 3
  | .Cross => 4
  | .Semi => 5
  | .AntiNullAsTrue => 6
  | .AntiNullAsFalse => 7

/-- `AbstractExpression` subtree relevant to join predicates:
`LQPColumnExpression` (identity is owning node id and column id),
`ValueExpression`, and `BinaryPredicateExpression`. -/
inductive Expression where
  | lqpColumn (nodeId : Nat) (columnId : Nat)
  | value (v : Int)
  | binaryPredicate (condition : PredicateCondition)
      (leftOperand rightOperand : Expression)
deriving DecidableEq, Repr

/-- `ExpressionsConstraintDefinition`: a unique constraint is a set of column
expressions. -/
abbrev ExpressionsConstraintDefinition := Finset Expression

/-- `ExpressionsConstraintDefinitions`: the set of unique constraints of a
node. -/
abbrev ExpressionsConstraintDefinitions := Finset ExpressionsConstraintDefinition

/-- An input node of a `JoinNode`, abstracted by the virtual interface the
join code consults on `left_input()` / `right_input()`: its output column
expressions, per-column nullability, and its set of unique constraints. -/
structure LQPInput where
  columnExpressions : List Expression
  isColumnNullable : Nat → Bool
  constraints : ExpressionsConstraintDefinitions

/-- Modelled from the spec: `AbstractLQPNode::has_unique_constraint` is not
among the repository files under src/. §4.5 of the spec defines
`left_unique = U_L contains \x7ba\x7d`, i.e. membership of the column set in the
node's set of declared unique constraints. -/
def LQPInput.has_unique_constraint (input : LQPInput)
    (columns : ExpressionsConstraintDefinition) : Bool :=
  decide (columns ∈ input.constraints)

/-- `JoinNode`: join mode, both inputs, and the node expressions
(`join_predicates()` returns `node_expressions`). -/
structure JoinNode where
  joinMode : JoinMode
  leftInput : LQPInput
  rightInput : LQPInput
  joinPredicates : List Expression

/-- The no-predicate constructor `JoinNode::JoinNode(join_mode)`:
`Assert(join_mode == JoinMode::Cross, "Only Cross Joins can be constructed
without predicate")`. `Except.error` models a failed `Assert`
(an `InvariantViolation`). -/
def JoinNode.mkNoPredicate (mode : JoinMode) (l r : LQPInput) :
    Except String JoinNode :=
  if mode = JoinMode.Cross then
    .ok ⟨mode, l, r, []⟩
  else
    .error "InvariantViolation: Only Cross Joins can be constructed without predicate"

/-- The predicate-list constructor `JoinNode::JoinNode(join_mode,
join_predicates)`: asserts the mode is not `Cross` and the predicate list is
not empty. -/
def JoinNode.mkWithPredicates (mode : JoinMode) (l r : LQPInput)
    (preds : List Expression) : Except String JoinNode :=
  if mode = JoinMode.Cross then
    .error "InvariantViolation: Cross Joins take no predicate"
  else if preds = [] then
    .error "InvariantViolation: Non-Cross Joins require predicates"
  else
    .ok ⟨mode, l, r, preds⟩

/-- The single-predicate constructor, which delegates to the list
constructor with a one-element vector. -/
def JoinNode.mkSinglePredicate (mode : JoinMode) (l r : LQPInput)
    (p : Expression) : Except String JoinNode :=
  JoinNode.mkWithPredicates mode l r [p]

/-- `JoinNode::column_expressions`: left input's expressions, followed by the
right input's unless the mode is Semi / AntiNullAsTrue / AntiNullAsFalse. -/
def JoinNode.column_expressions (n : JoinNode) : List Expression :=
  let leftExpressions := n.leftInput.columnExpressions
  let rightExpressions := n.rightInput.columnExpressions
  let output_both_inputs : Bool :=
    n.joinMode ≠ JoinMode.Semi && n.joinMode ≠ JoinMode.AntiNullAsTrue &&
      n.joinMode ≠ JoinMode.AntiNullAsFalse
  if output_both_inputs then leftExpressions ++ rightExpressions
  else leftExpressions

/-- Modelled from the spec: `AbstractLQPNode::forward_constraints` is not
among the repository files under src/. §4.5's table has Semi joins
"forward U_L", and scenario 5 states
`Join(Semi, L.a = R.b).constraints() == L.constraints()`; so forwarding
returns the left input's constraint set. The result is wrapped like
`JoinNode.constraints` results: `some` a set models a valid
`shared_ptr`. -/
def JoinNode.forward_constraints (n : JoinNode) :
    Except String (Option ExpressionsConstraintDefinitions) :=
  .ok (some n.leftInput.constraints)

/-- `JoinNode::constraints`. The returned `shared_ptr` is modelled as
`Option`: `some s` is a valid pointer to the set `s`, `none` is a null
pointer (the `return \x7b\x7d;` in the non-Equals branch). `Except.error` models
undefined behaviour or `Fail`: `join_predicates().front()` on an empty
vector is undefined behaviour, reached when the predicate list is empty
(every constructible Cross join). -/
def JoinNode.constraints (n : JoinNode) :
    Except String (Option ExpressionsConstraintDefinitions) :=
  if n.joinMode = JoinMode.Semi then
    n.forward_constraints
  else if 1 < n.joinPredicates.length then
    -- No guarantees for multi predicate joins
    .ok (some ∅)
  else
    match n.joinPredicates.head? with
    | none => .error "undefined behaviour: front() of an empty predicate vector"
    | some front =>
      match front with
      | .binaryPredicate condition a b =>
        if condition ≠ PredicateCondition.Equals then
          -- No guarantees for Non-Equi Joins: C++ returns a default
          -- (null) shared_ptr here.
          .ok none
        else
          let left_operand_unique := n.leftInput.has_unique_constraint {a}
          let right_operand_unique := n.rightInput.has_unique_constraint {b}
          match n.joinMode with
          | .Inner =>
            if left_operand_unique && right_operand_unique then
              .ok (some (n.leftInput.constraints ∪ n.rightInput.constraints))
            else if left_operand_unique then
              .ok (some n.rightInput.constraints)
            else if right_operand_unique then
              .ok (some n.leftInput.constraints)
            else
              .ok (some ∅)
          | .Left => .ok (some ∅)
          | .Right => .ok (some ∅)
          | .FullOuter => .ok (some ∅)
          | .Cross => .ok (some ∅)
          | .Semi => .error "JoinMode::Semi should already be handled."
          | .AntiNullAsTrue => .ok (some ∅)
          | .AntiNullAsFalse => .ok (some ∅)
      | _ =>
        -- dynamic_pointer_cast<BinaryPredicateExpression> failed: C++
        -- returns a default (null) shared_ptr here as well.
        .ok none

/-- `JoinNode::is_column_nullable`. -/
def JoinNode.is_column_nullable (n : JoinNode) (column_id : Nat) : Bool :=
  let left_input_column_count := n.leftInput.columnExpressions.length
  let column_is_from_left_input : Bool :=
    decide (column_id < left_input_column_count)
  if n.joinMode = JoinMode.Left && !column_is_from_left_input then
    true
  else if n.joinMode = JoinMode.Right && column_is_from_left_input then
    true
  else if n.joinMode = JoinMode.FullOuter then
    true
  else if column_is_from_left_input then
    n.leftInput.isColumnNullable column_id
  else
    n.rightInput.isColumnNullable (column_id - left_input_column_count)

/-- Modelled from the spec: `expressions_copy_and_adapt_to_different_lqp`
from expression_utils is not among the repository files under src/. Per
§4.1, `deep_copy(mapping)` "produces a clone with column references
rewritten through the supplied node-identity mapping"; node identities are
modelled as `Nat`. -/
def Expression.adaptToDifferentLQP (mapping : Nat → Nat) :
    Expression → Expression
  | .lqpColumn nodeId columnId => .lqpColumn (mapping nodeId) columnId
  | .value v => .value v
  | .binaryPredicate c l r =>
      .binaryPredicate c (l.adaptToDifferentLQP mapping)
        (r.adaptToDifferentLQP mapping)

/-- Modelled from the spec (see `Expression.adaptToDifferentLQP`): copying a
list of expressions and adapting each to the mapped LQP. -/
def expressions_copy_and_adapt_to_different_lqp (es : List Expression)
    (mapping : Nat → Nat) : List Expression :=
  es.map (Expression.adaptToDifferentLQP mapping)

/-- Modelled from the spec: `expressions_equal_to_expressions_in_different_lqp`
is not among the repository files under src/. Per §4.2, equality of
node expressions holds "up to `mapping` on column references": the left
list, with column references rewritten through the mapping, must equal the
right list structurally. -/
def expressions_equal_to_expressions_in_different_lqp
    (lhs rhs : List Expression) (mapping : Nat → Nat) : Bool :=
  decide (lhs.map (Expression.adaptToDifferentLQP mapping) = rhs)

/-- `JoinNode::_on_shallow_copy`: with predicates, rebuild through the
asserting predicate-list constructor on copied-and-adapted predicates;
without predicates, through the no-predicate constructor. The inputs of a
shallow copy are wired by the caller; shallow equality does not consult
them, and they are carried over here. -/
def JoinNode.shallow_copy (n : JoinNode) (mapping : Nat → Nat) :
    Except String JoinNode :=
  if n.joinPredicates ≠ [] then
    JoinNode.mkWithPredicates n.joinMode n.leftInput n.rightInput
      (expressions_copy_and_adapt_to_different_lqp n.joinPredicates mapping)
  else
    JoinNode.mkNoPredicate n.joinMode n.leftInput n.rightInput

/-- `JoinNode::_on_shallow_equals`: identical join mode and predicate lists
expression-equal under the node mapping. -/
def JoinNode.shallow_equals (n rhs : JoinNode) (mapping : Nat → Nat) : Bool :=
  if n.joinMode ≠ rhs.joinMode then false
  else
    expressions_equal_to_expressions_in_different_lqp n.joinPredicates
      rhs.joinPredicates mapping

/-- `JoinNode::_on_shallow_hash`: `boost::hash_value(join_mode)`, modelled as
the mode's enum code. -/
def JoinNode.shallow_hash (n : JoinNode) : Nat :=
  n.joinMode.code

/-- A join node is constructible exactly when Cross carries no predicates and
any other mode carries at least one (the two constructors' assertions). -/
def JoinNode.WellFormed (n : JoinNode) : Prop :=
  n.joinMode = JoinMode.Cross ↔ n.joinPredicates = []

/-! ## Calibration query generator: predicate configuration ordering -/

/-- Modelled from the spec: the `DataType` enum is defined outside the
repository files under src/; §6 lists the closed enum
"Null, Int, Long, Float, Double, String" in this declaration order, and the
C++ comparison of enum tags is by underlying integer value. -/
inductive DataType where
  | Null
  | Int
  | Long
  | Float
  | Double
  | String
deriving DecidableEq, Repr, Fintype

/-- Declaration-order code of a `DataType` (the underlying enum value). -/
def DataType.code : DataType → Nat
  | .Null => 0
  | .Int => 1
  | .Long => 2
  | .Float => 3
  | .Double => 4
  | .String => 5

/-- Modelled from the spec: the `EncodingType` enum is defined outside the
repository files under src/; §6 lists the closed enum "Unencoded,
Dictionary, RunLength, FrameOfReference, LZ4, FixedStringDictionary" in this
declaration order. -/
inductive EncodingType where
  | Unencoded
  | Dictionary
  | RunLength
  | FrameOfReference
  | LZ4
  | FixedStringDictionary
deriving DecidableEq, Repr, Fintype

/-- Declaration-order code of an `EncodingType` (the underlying enum
value). -/
def EncodingType.code : EncodingType → Nat
  | .Unencoded => 0
  | .Dictionary => 1
  | .RunLength => 2
  | .FrameOfReference => 3
  | .LZ4 => 4
  | .FixedStringDictionary => 5

theorem dataTypeCodeInjective :
    ∀ a b : DataType, a.code = b.code → a = b := by decide

theorem encodingTypeCodeInjective :
    ∀ a b : EncodingType, a.code = b.code → a = b := by decide

instance : LinearOrder DataType :=
  LinearOrder.lift' DataType.code fun a b => dataTypeCodeInjective a b

instance : LinearOrder EncodingType :=
  LinearOrder.lift' EncodingType.code fun a b => encodingTypeCodeInjective a b

/-- `CalibrationQueryGeneratorPredicateConfiguration`, fields in declaration
order. `std::optional<EncodingType>` is modelled as `WithBot EncodingType`
(`⊥` is `nullopt` and compares below every engaged value, as in
`std::optional`'s `operator<`); the `float` selectivity is modelled as an
exact rational. -/
structure CalibrationQueryGeneratorPredicateConfiguration where
  table_name : String
  data_type : DataType
  first_encoding_type : EncodingType
  second_encoding_type : WithBot EncodingType
  third_encoding_type : WithBot EncodingType
  selectivity : ℚ
  reference_column : Bool
  row_count : Nat
deriving DecidableEq

/-- One lexicographic step of `std::tuple::operator<` as produced by
`std::tie`: `x < y`, or neither `x < y` nor `y < x` and the remaining fields
compare less. -/
def tieLt {α : Type} [LinearOrder α] (x y : α) (rest : Bool) : Bool :=
  if x < y then true
  else if y < x then false
  else rest

/-- One step of `std::tuple::operator==` as produced by `std::tie`. -/
def tieEq {α : Type} [DecidableEq α] (x y : α) (rest : Bool) : Bool :=
  decide (x = y) && rest

/-- `operator<` on `CalibrationQueryGeneratorPredicateConfiguration`: the
`std::tie` comparison over table_name, data_type, first/second/third
encoding type, selectivity, reference_column, row_count — the lexicographic
order of the fields in declaration order (an exhausted tuple compares
less-than as `false`). -/
def predicateConfigurationLt
    (lhs rhs : CalibrationQueryGeneratorPredicateConfiguration) : Bool :=
  tieLt lhs.table_name rhs.table_name
    (tieLt lhs.data_type rhs.data_type
      (tieLt lhs.first_encoding_type rhs.first_encoding_type
        (tieLt lhs.second_encoding_type rhs.second_encoding_type
          (tieLt lhs.third_encoding_type rhs.third_encoding_type
            (tieLt lhs.selectivity rhs.selectivity
              (tieLt lhs.reference_column rhs.reference_column
                (tieLt lhs.row_count rhs.row_count false)))))))

/-- `operator==` on `CalibrationQueryGeneratorPredicateConfiguration`: the
`std::tie` field-wise equality (an exhausted tuple compares equal as
`true`). -/
def predicateConfigurationEq
    (lhs rhs : CalibrationQueryGeneratorPredicateConfiguration) : Bool :=
  tieEq lhs.table_name rhs.table_name
    (tieEq lhs.data_type rhs.data_type
      (tieEq lhs.first_encoding_type rhs.first_encoding_type
        (tieEq lhs.second_encoding_type rhs.second_encoding_type
          (tieEq lhs.third_encoding_type rhs.third_encoding_type
            (tieEq lhs.selectivity rhs.selectivity
              (tieEq lhs.reference_column rhs.reference_column
                (tieEq lhs.row_count rhs.row_count true)))))))

/-! ## Concrete inputs used by witnesses and counterexamples -/

/-- Column `a`, output by a node with identity 0. -/
def colA : Expression := .lqpColumn 0 0

/-- Column `b`, output by a node with identity 1. -/
def colB : Expression := .lqpColumn 1 0

/-- A left input `L` with one column `a` and the unique constraint on it. -/
def inputL : LQPInput :=
  ⟨[colA], fun _ => false, {({colA} : Finset Expression)}⟩

/-- A right input `R` with one column `b` and the unique constraint on it. -/
def inputR : LQPInput :=
  ⟨[colB], fun _ => false, {({colB} : Finset Expression)}⟩

/-- A right input with no constraints, two columns, the second nullable. -/
def inputRNoConstraints : LQPInput :=
  ⟨[colB, .lqpColumn 1 1], fun i => decide (i = 1), ∅⟩

/-- Whether an expression is a `BinaryPredicateExpression` with condition
`Equals` — the predicate shape the constraint-propagation guard accepts. -/
def isEqualsBinaryPredicate : Expression → Bool
  | .binaryPredicate c _ _ => decide (c = PredicateCondition.Equals)
  | _ => false

/-- Whether a constructor run succeeded, i.e. no `Assert` fired. -/
def constructionSucceeds {α : Type} : Except String α → Bool
  | .ok _ => true
  | .error _ => false

/-! ## Helper lemmas -/

/-- A Semi join forwards constraints before any predicate-shape guard is
evaluated. -/
theorem JoinNode.constraints_semi (l r : LQPInput) (ps : List Expression) :
    (⟨JoinMode.Semi, l, r, ps⟩ : JoinNode).constraints
      = Except.ok (some l.constraints) := rfl

/-- Adapting an expression through the identity node mapping is the
identity. -/
theorem Expression.adaptToDifferentLQP_id (e : Expression) :
    Expression.adaptToDifferentLQP (fun x => x) e = e := by
  induction e with
  | lqpColumn nodeId columnId => rfl
  | value v => rfl
  | binaryPredicate c l r ihl ihr =>
      simp [Expression.adaptToDifferentLQP, ihl, ihr]

/-- Function form of `Expression.adaptToDifferentLQP_id`. -/
theorem Expression.adaptToDifferentLQP_id_fun :
    (Expression.adaptToDifferentLQP fun x => x) = fun e => e :=
  funext Expression.adaptToDifferentLQP_id

/-- One `std::tie` comparison step preserves the exactly-one-of-three
property of the remaining fields. -/
theorem tie_step_total {α : Type} [LinearOrder α] [DecidableEq α]
    (x y : α) (rl re rg : Bool)
    (h : rl.toNat + re.toNat + rg.toNat = 1) :
    (tieLt x y rl).toNat + (tieEq x y re).toNat + (tieLt y x rg).toNat = 1 := by
  rcases lt_trichotomy x y with hxy | hxy | hxy
  · simp [tieLt, tieEq, hxy, asymm hxy, ne_of_lt hxy]
  · subst hxy
    simpa [tieLt, tieEq] using h
  · simp [tieLt, tieEq, hxy, asymm hxy, (ne_of_lt hxy).symm]

/-! ## Claim theorems -/

/-- C1: for an Inner join with both inputs set and the single Equals
predicate `L.a = R.b`: if both operands carry a unique constraint,
`constraints()` is the union of both inputs' constraint sets; if only the
left operand is unique, it is exactly the right input's constraints; if only
the right operand is unique, exactly the left input's; if neither, the empty
constraint set. -/
theorem inner_equi_join_constraints_cases (L R : LQPInput) (a b : Expression) :
    (L.has_unique_constraint {a} = true → R.has_unique_constraint {b} = true →
      (⟨JoinMode.Inner, L, R,
          [Expression.binaryPredicate PredicateCondition.Equals a b]⟩ :
        JoinNode).constraints
        = Except.ok (some (L.constraints ∪ R.constraints))) ∧
    (L.has_unique_constraint {a} = true → R.has_unique_constraint {b} = false →
      (⟨JoinMode.Inner, L, R,
          [Expression.binaryPredicate PredicateCondition.Equals a b]⟩ :
        JoinNode).constraints = Except.ok (some R.constraints)) ∧
    (L.has_unique_constraint {a} = false → R.has_unique_constraint {b} = true →
      (⟨JoinMode.Inner, L, R,
          [Expression.binaryPredicate PredicateCondition.Equals a b]⟩ :
        JoinNode).constraints = Except.ok (some L.constraints)) ∧
    (L.has_unique_constraint {a} = false → R.has_unique_constraint {b} = false →
      (⟨JoinMode.Inner, L, R,
          [Expression.binaryPredicate PredicateCondition.Equals a b]⟩ :
        JoinNode).constraints
        = Except.ok (some (∅ : ExpressionsConstraintDefinitions))) := by
  refine ⟨fun h1 h2 => ?_, fun h1 h2 => ?_, fun h1 h2 => ?_, fun h1 h2 => ?_⟩ <;>
    simp [JoinNode.constraints, h1, h2]

/-- C1 witness: with `L` unique on its column `a` and `R` unique on its
column `b`, the Inner equi-join returns the union of both constraint
sets. -/
theorem inner_equi_join_constraints_cases_witness :
    (⟨JoinMode.Inner, inputL, inputR,
        [Expression.binaryPredicate PredicateCondition.Equals colA colB]⟩ :
      JoinNode).constraints
      = Except.ok (some (inputL.constraints ∪ inputR.constraints)) :=
  (inner_equi_join_constraints_cases inputL inputR colA colB).1
    (by decide) (by decide)

/-- C3: a Semi join with a single Equals predicate returns exactly the left
input's constraint set, with no condition on the right input. -/
theorem semi_join_single_equals_forwards_left_constraints
    (L R : LQPInput) (a b : Expression) :
    (⟨JoinMode.Semi, L, R,
        [Expression.binaryPredicate PredicateCondition.Equals a b]⟩ :
      JoinNode).constraints = Except.ok (some L.constraints) :=
  JoinNode.constraints_semi L R _

/-- C10: a Semi join forwards its left input's constraints through
`forward_constraints()` before the single-Equals-predicate guard is reached:
with several predicates, or with a single predicate that is not an Equals
binary predicate, the left input's constraints are still forwarded. -/
theorem semi_join_unsupported_shape_still_forwards
    (L R : LQPInput) (ps : List Expression)
    (h : 1 < ps.length ∨ ∃ p, ps = [p] ∧ isEqualsBinaryPredicate p = false) :
    (⟨JoinMode.Semi, L, R, ps⟩ : JoinNode).constraints
        = (⟨JoinMode.Semi, L, R, ps⟩ : JoinNode).forward_constraints ∧
      (⟨JoinMode.Semi, L, R, ps⟩ : JoinNode).constraints
        = Except.ok (some L.constraints) :=
  ⟨rfl, JoinNode.constraints_semi L R ps⟩

/-- C10 witness: a Semi join with two Equals predicates still forwards the
left input's constraints. -/
theorem semi_join_unsupported_shape_still_forwards_witness :
    (⟨JoinMode.Semi, inputL, inputR,
        [Expression.binaryPredicate PredicateCondition.Equals colA colB,
         Expression.binaryPredicate PredicateCondition.Equals colA colB]⟩ :
      JoinNode).constraints = Except.ok (some inputL.constraints) :=
  (semi_join_unsupported_shape_still_forwards inputL inputR _
    (Or.inl (by decide))).2

/-- C2 counterexample: an Inner join whose single predicate is
`a < b` (not Equals). The claim states `constraints()` returns the empty
constraint set; the code instead executes `return \x7b\x7d;`, a null
`shared_ptr` (modelled `none`), which is not the empty set. -/
theorem non_equals_predicate_null_constraints_counterexample :
    (⟨JoinMode.Inner, inputL, inputR,
        [Expression.binaryPredicate PredicateCondition.LessThan colA colB]⟩ :
      JoinNode).constraints
        = Except.ok (none : Option ExpressionsConstraintDefinitions) ∧
      (Except.ok (none : Option ExpressionsConstraintDefinitions) :
          Except String (Option ExpressionsConstraintDefinitions)) ≠
        Except.ok (some (∅ : ExpressionsConstraintDefinitions)) :=
  ⟨rfl, by simp⟩

/-- C2 amended: for every Join node in a mode other than Semi, with more
than one join predicate `constraints()` returns the (non-null) empty
constraint set, and with a single predicate that is not an Equals binary
predicate it returns a null constraint-set handle; neither case raises an
error. -/
theorem unsupported_shape_constraints_non_semi
    (m : JoinMode) (L R : LQPInput) (ps : List Expression)
    (hm : m ≠ JoinMode.Semi) :
    (1 < ps.length →
      (⟨m, L, R, ps⟩ : JoinNode).constraints
        = Except.ok (some (∅ : ExpressionsConstraintDefinitions))) ∧
    (∀ p : Expression, ps = [p] → isEqualsBinaryPredicate p = false →
      (⟨m, L, R, ps⟩ : JoinNode).constraints
        = Except.ok (none : Option ExpressionsConstraintDefinitions)) := by
  constructor
  · intro hlen
    simp [JoinNode.constraints, hm, hlen]
  · rintro p rfl hp
    cases p with
    | lqpColumn nodeId columnId => simp [JoinNode.constraints, hm]
    | value v => simp [JoinNode.constraints, hm]
    | binaryPredicate c l r =>
        have hc : c ≠ PredicateCondition.Equals := by
          simpa [isEqualsBinaryPredicate] using hp
        simp [JoinNode.constraints, hm, hc]

/-- C2 witness: an Inner join with two predicates yields the empty
constraint set. -/
theorem unsupported_shape_constraints_non_semi_witness :
    (⟨JoinMode.Inner, inputL, inputR,
        [Expression.binaryPredicate PredicateCondition.Equals colA colB,
         Expression.binaryPredicate PredicateCondition.Equals colA colB]⟩ :
      JoinNode).constraints
      = Except.ok (some (∅ : ExpressionsConstraintDefinitions)) :=
  (unsupported_shape_constraints_non_semi JoinMode.Inner inputL inputR _
    (by decide)).1 (by decide)

/-- C4: evaluation at the failing input. A constructible Cross join carries
no predicates, so `constraints()` reaches `join_predicates().front()` on an
empty vector — undefined behaviour, modelled as an error — before the
switch's (unreachable) Cross case that would return the empty set. -/
theorem cross_join_constraints_hits_empty_front :
    (⟨JoinMode.Cross, inputL, inputR, []⟩ : JoinNode).constraints
      = Except.error "undefined behaviour: front() of an empty predicate vector" :=
  rfl

/-- C5: output columns of a join are the left input's columns for
Semi/AntiNullAsTrue/AntiNullAsFalse, and the left input's columns followed
by the right input's for every other mode; the sizes follow. -/
theorem join_column_expressions_by_mode
    (m : JoinMode) (L R : LQPInput) (ps : List Expression) :
    (⟨m, L, R, ps⟩ : JoinNode).column_expressions =
      (if m = JoinMode.Semi ∨ m = JoinMode.AntiNullAsTrue ∨
          m = JoinMode.AntiNullAsFalse
        then L.columnExpressions
        else L.columnExpressions ++ R.columnExpressions) ∧
    (⟨m, L, R, ps⟩ : JoinNode).column_expressions.length =
      (if m = JoinMode.Semi ∨ m = JoinMode.AntiNullAsTrue ∨
          m = JoinMode.AntiNullAsFalse
        then L.columnExpressions.length
        else L.columnExpressions.length + R.columnExpressions.length) := by
  cases m <;> simp [JoinNode.column_expressions]

/-- C6: nullability of a join's output column `i` (in range): for a Left
join every right-side column is nullable, for a Right join every left-side
column is nullable, for a FullOuter join every column is nullable, and in
every other case nullability is the respective input's at the input-local
index. -/
theorem join_is_column_nullable_cases
    (m : JoinMode) (L R : LQPInput) (ps : List Expression) (i : Nat)
    (hi : i < (⟨m, L, R, ps⟩ : JoinNode).column_expressions.length) :
    (m = JoinMode.Left → L.columnExpressions.length ≤ i →
      (⟨m, L, R, ps⟩ : JoinNode).is_column_nullable i = true) ∧
    (m = JoinMode.Right → i < L.columnExpressions.length →
      (⟨m, L, R, ps⟩ : JoinNode).is_column_nullable i = true) ∧
    (m = JoinMode.FullOuter →
      (⟨m, L, R, ps⟩ : JoinNode).is_column_nullable i = true) ∧
    ((m = JoinMode.Left → i < L.columnExpressions.length) →
      (m = JoinMode.Right → L.columnExpressions.length ≤ i) →
      m ≠ JoinMode.FullOuter →
      (⟨m, L, R, ps⟩ : JoinNode).is_column_nullable i =
        if i < L.columnExpressions.length then L.isColumnNullable i
        else R.isColumnNullable (i - L.columnExpressions.length)) := by
  by_cases hlt : i < L.columnExpressions.length <;>
    cases m <;>
      simp [JoinNode.is_column_nullable, hlt, Nat.not_lt, Nat.le_of_lt,
        Nat.not_le_of_lt]

/-- C6 witness: a Left join over `L` (one non-nullable column) and `R`:
the right-side column at output index 1 is nullable. -/
theorem join_is_column_nullable_cases_witness :
    (⟨JoinMode.Left, inputL, inputR,
        [Expression.binaryPredicate PredicateCondition.Equals colA colB]⟩ :
      JoinNode).is_column_nullable 1 = true :=
  (join_is_column_nullable_cases JoinMode.Left inputL inputR
      [Expression.binaryPredicate PredicateCondition.Equals colA colB] 1
      (by decide)).1 rfl (by decide)

/-- C7: the no-predicate constructor succeeds exactly for Cross, and the
predicate-list constructor succeeds exactly for a non-Cross mode with a
non-empty predicate list; in particular Cross with one or more predicates
and non-Cross without predicates fail with an `InvariantViolation`. -/
theorem join_node_construction_invariants
    (m : JoinMode) (l r : LQPInput) (p : Expression) (ps : List Expression) :
    (constructionSucceeds (JoinNode.mkNoPredicate m l r) = true ↔
      m = JoinMode.Cross) ∧
    (constructionSucceeds (JoinNode.mkWithPredicates m l r ps) = true ↔
      (m ≠ JoinMode.Cross ∧ ps ≠ [])) ∧
    (constructionSucceeds (JoinNode.mkSinglePredicate m l r p) = true ↔
      m ≠ JoinMode.Cross) := by
  cases m <;> cases ps <;>
    simp [JoinNode.mkNoPredicate, JoinNode.mkWithPredicates,
      JoinNode.mkSinglePredicate, constructionSucceeds]

/-- C7 witness: `JoinNode(Cross)` succeeds, instantiating the construction
invariants at a concrete mode and predicate list. -/
theorem join_node_construction_invariants_witness :
    constructionSucceeds
        (JoinNode.mkNoPredicate JoinMode.Cross inputL inputR) = true :=
  (join_node_construction_invariants JoinMode.Cross inputL inputR colA []).1.mpr
    rfl

/-- C8: for every constructible join node, the shallow copy under the
identity node mapping succeeds and `shallow_equals` the original under the
identity mapping; it keeps the join mode, and `shallow_hash` is stable. -/
theorem join_shallow_copy_roundtrip_shallow_equals
    (n : JoinNode) (h : n.WellFormed) :
    ∃ c : JoinNode, n.shallow_copy (fun x => x) = Except.ok c ∧
      c.shallow_equals n (fun x => x) = true ∧
      c.joinMode = n.joinMode ∧ c.shallow_hash = n.shallow_hash := by
  by_cases hp : n.joinPredicates = []
  · have hm : n.joinMode = JoinMode.Cross := h.mpr hp
    refine ⟨⟨n.joinMode, n.leftInput, n.rightInput, []⟩, ?_, ?_, rfl, rfl⟩
    · simp [JoinNode.shallow_copy, JoinNode.mkNoPredicate, hp, hm]
    · simp [JoinNode.shallow_equals,
        expressions_equal_to_expressions_in_different_lqp, hp]
  · have hm : n.joinMode ≠ JoinMode.Cross := fun hc => hp (h.mp hc)
    refine ⟨⟨n.joinMode, n.leftInput, n.rightInput,
        expressions_copy_and_adapt_to_different_lqp n.joinPredicates
          (fun x => x)⟩, ?_, ?_, rfl, rfl⟩
    · simp [JoinNode.shallow_copy, JoinNode.mkWithPredicates, hp, hm,
        expressions_copy_and_adapt_to_different_lqp]
    · simp [JoinNode.shallow_equals,
        expressions_equal_to_expressions_in_different_lqp,
        expressions_copy_and_adapt_to_different_lqp,
        Expression.adaptToDifferentLQP_id_fun]

/-- C8 witness: the round trip at a concrete Inner join with one Equals
predicate. -/
theorem join_shallow_copy_roundtrip_shallow_equals_witness :
    ∃ c : JoinNode,
      (⟨JoinMode.Inner, inputL, inputR,
          [Expression.binaryPredicate PredicateCondition.Equals colA colB]⟩ :
        JoinNode).shallow_copy (fun x => x) = Except.ok c ∧
      c.shallow_equals
          (⟨JoinMode.Inner, inputL, inputR,
            [Expression.binaryPredicate PredicateCondition.Equals colA colB]⟩ :
          JoinNode) (fun x => x) = true ∧
      c.joinMode = JoinMode.Inner ∧ c.shallow_hash = JoinMode.Inner.code :=
  join_shallow_copy_roundtrip_shallow_equals
    ⟨JoinMode.Inner, inputL, inputR,
      [Expression.binaryPredicate PredicateCondition.Equals colA colB]⟩
    (by constructor <;> intro hh <;> simp_all)

/-- C9: the comparison on `CalibrationQueryGeneratorPredicateConfiguration`
is the lexicographic order of the fields in declaration order and is a
strict total order consistent with equality: for any two configurations
exactly one of `a < b`, `a == b`, `b < a` holds, and `a == b` exactly when
the configurations are equal; hence any emitted sequence of configurations
is totally ordered by it. -/
theorem predicate_configuration_order_trichotomy
    (a b : CalibrationQueryGeneratorPredicateConfiguration) :
    ((predicateConfigurationLt a b).toNat +
        (predicateConfigurationEq a b).toNat +
        (predicateConfigurationLt b a).toNat = 1) ∧
    (predicateConfigurationEq a b = true ↔ a = b) := by
  constructor
  · unfold predicateConfigurationLt predicateConfigurationEq
    apply tie_step_total
    apply tie_step_total
    apply tie_step_total
    apply tie_step_total
    apply tie_step_total
    apply tie_step_total
    apply tie_step_total
    apply tie_step_total
    rfl
  · cases a
    cases b
    simp [predicateConfigurationEq, tieEq, and_assoc]

end HyriseLQP
